import Mathlib

set_option autoImplicit false

namespace Generate

/-- Audio byte strings are modelled as lists of naturals, one per byte. -/
abbrev Bytes := List Nat

/-- A CSV data row as csv.DictReader yields it: an association list from
column names to cell values (generate.py line 156). -/
abbrev Row := List (String × String)

/-- Embeds the Python str.strip() with no arguments: remove leading and
trailing whitespace. Stated on the character list so that it computes by
structural recursion. -/
def pyStrip (s : String) : String :=
  String.mk ((s.data.dropWhile Char.isWhitespace).reverse.dropWhile Char.isWhitespace).reverse

/-- A separator character of the ids argument. In parse_ids (generate.py
lines 13-22) the source first replaces each comma by a space and then uses
the Python whitespace split, so the tokens are exactly the maximal runs of
characters that are neither a comma nor whitespace. -/
def sep (c : Char) : Bool := c == ',' || c.isWhitespace

/-- Accumulator-based splitter over the character list: yields the maximal
runs of non-separator characters, in order. This embeds the combination
replace-comma-by-space followed by the whitespace split of generate.py
line 20. -/
def splitAux : List Char → List Char → List (List Char)
  | [], acc => if acc.isEmpty then [] else [acc.reverse]
  | c :: cs, acc =>
    if sep c then
      if acc.isEmpty then splitAux cs [] else acc.reverse :: splitAux cs []
    else
      splitAux cs (c :: acc)

/-- The token list of an ids argument string (generate.py line 20). -/
def splitParts (cs : List Char) : List (List Char) := splitAux cs []

/-- Embeds parse_ids (generate.py lines 13-22). A missing or empty argument
(Python falsy) gives none, meaning all rows. Tokens are stripped and empty
tokens dropped exactly as lines 20-21 do; the resulting Python set is
modelled as a duplicate-free list (List.dedup), membership being the only
operation the program performs on it. -/
def parse_ids : Option String → Option (List String)
  | none => none
  | some s =>
    if s = "" then none
    else
      let parts := (splitParts s.data).map (fun w => pyStrip (String.mk w))
      let parts2 := parts.filter (fun p => !(p == ""))
      if parts2 = [] then none else some parts2.dedup

/-- The JSON body of the synthesis POST request (generate.py lines 30-35),
together with the query-string credential of the URL. -/
structure TtsRequest where
  key : String
  ssml : String
  languageCode : String
  name : String
  audioEncoding : String
deriving DecidableEq, Repr

/-- Builds the request exactly as generate.py lines 30-35 do: the audio
encoding is the fixed string LINEAR16. -/
def tts_request (api_key voice_name language_code ssml : String) : TtsRequest :=
  { key := api_key, ssml := ssml, languageCode := language_code,
    name := voice_name, audioEncoding := "LINEAR16" }

/-- A response of the remote service, as far as generate.py consumes it:
the status code, the base64 audio payload of the parsed JSON body (the code
reads it only on status 200; responses are modelled as carrying this field),
the Python repr of the parsed JSON body when the body parses (none when it
does not), and the raw body text. -/
structure HttpResp where
  status_code : Nat
  audioContent : String
  jsonRepr? : Option String
  text : String

/-- The err value interpolated into the failure message (generate.py lines
39-42): the parsed JSON body when parsing succeeds, else a raw-text
dictionary around the body text. -/
def err_repr (r : HttpResp) : String :=
  match r.jsonRepr? with
  | some j => j
  | none => "\x7b\x27raw\x27: \x27" ++ r.text ++ "\x27\x7d"

/-- Embeds synthesize_ssml_wav (generate.py lines 25-46). The single HTTP
POST is modelled by the http_post oracle; base64.b64decode by the b64decode
oracle. The first component lists the requests performed (the source
performs exactly one, with no retry); the second is the result: decoded
bytes on status 200, otherwise the RuntimeError message of line 43. -/
def synthesize_ssml_wav (b64decode : String → Bytes) (http_post : TtsRequest → HttpResp)
    (api_key voice_name language_code ssml : String) : List TtsRequest × Except String Bytes :=
  let req := tts_request api_key voice_name language_code ssml
  let r := http_post req
  if r.status_code ≠ 200 then
    ([req], Except.error ("TTS failed (" ++ toString r.status_code ++ "): " ++ err_repr r))
  else
    ([req], Except.ok (b64decode r.audioContent))

/-- The fixed ffmpeg argument template per target format (generate.py lines
76-83); none models the ValueError branch for an unsupported format. -/
def ffmpeg_cmd (fmt tmp_wav_path out_path : String) : Option (List String) :=
  if fmt = "wav" then
    some ["ffmpeg", "-y", "-i", tmp_wav_path, "-c:a", "pcm_s16le", out_path]
  else if fmt = "mp3" then
    some ["ffmpeg", "-y", "-i", tmp_wav_path, "-codec:a", "libmp3lame", "-q:a", "2", out_path]
  else if fmt = "ogg" then
    some ["ffmpeg", "-y", "-i", tmp_wav_path, "-codec:a", "libvorbis", "-q:a", "5", out_path]
  else none

/-- A file-system effect of the program: a direct Python file write, an
ffmpeg subprocess invocation (which creates the file named by the last
command argument), or a file removal. -/
inductive FsEvent
  | write (path : String) (bytes : Bytes)
  | ffmpegRun (cmd : List String)
  | remove (path : String)
deriving DecidableEq, Repr

/-- Models tempfile.mkstemp (generate.py line 69): the k-th temporary file
of the run, a fresh path in the system temporary directory. -/
def tmp_wav_path (k : Nat) : String := "/tmp/tmp" ++ toString k ++ ".wav"

/-- Embeds convert_wav_bytes_with_ffmpeg (generate.py lines 57-88): write
the bytes to a fresh temporary wav, run the template command for the format,
and delete the temporary unless asked to keep it (the finally block deletes
it even when the format is unsupported and a ValueError is raised, which the
optional error message models). The counter threads mkstemp freshness. -/
def convert_wav_bytes_with_ffmpeg (wav_bytes : Bytes) (out_path fmt : String)
    (delete_temp : Bool) (tmpCtr : Nat) : (List FsEvent × Option String) × Nat :=
  let tmp := tmp_wav_path tmpCtr
  match ffmpeg_cmd fmt tmp out_path with
  | some cmd =>
    (([FsEvent.write tmp wav_bytes, FsEvent.ffmpegRun cmd] ++
        (if delete_temp then [FsEvent.remove tmp] else []), none), tmpCtr + 1)
  | none =>
    (([FsEvent.write tmp wav_bytes] ++
        (if delete_temp then [FsEvent.remove tmp] else []),
      some ("Unsupported format: " ++ fmt)), tmpCtr + 1)

/-- The bare conversion command of the keep-intermediate branch (generate.py
lines 201-204): no codec and no quality arguments. -/
def keep_intermediate_cmd (intermediate_wav out_path : String) : List String :=
  ["ffmpeg", "-y", "-i", intermediate_wav, out_path]

/-- Embeds write_direct_wav (generate.py lines 91-94): a single direct file
write of the bytes. -/
def write_direct_wav (wav_bytes : Bytes) (out_path : String) : List FsEvent :=
  [FsEvent.write out_path wav_bytes]

/-- The command-line arguments after argparse (generate.py lines 98-122).
The format string is one of wav, mp3, ogg (argparse choices). -/
structure Args where
  api_key : String
  outdir : String
  ids : Option String
  id_col : String
  ssml_col : String
  voice : String
  lang : String
  format : String
  use_ffmpeg : Bool
  delete_original_wav : Bool

/-- The environment of a run: whether the dataset file exists, whether the
ffmpeg binary is found on the PATH, the CSV header fieldnames (empty list
models a missing header), and the data rows in file order. -/
structure Env where
  csv_exists : Bool
  ffmpeg_on_path : Bool
  fieldnames : List String
  rows : List Row

/-- Dictionary lookup with a default, modelling row.get(key, default). -/
def rowGet (row : Row) (k dflt : String) : String :=
  match row.find? (fun p => p.1 == k) with
  | some p => p.2
  | none => dflt

/-- The stripped identifier of a row (generate.py line 157). -/
def row_id_of (args : Args) (row : Row) : String :=
  pyStrip (rowGet row args.id_col "")

/-- The stripped markup of a row (generate.py line 167). -/
def ssml_of (args : Args) (row : Row) : String :=
  pyStrip (rowGet row args.ssml_col "")

/-- Whether an identifier passes the optional filter (generate.py line 164):
no filter lets everything through. -/
def passes (wanted : Option (List String)) (id : String) : Bool :=
  match wanted with
  | none => true
  | some l => decide (id ∈ l)

/-- A row that reaches the remote call: non-empty identifier, passing the
filter, non-empty markup. -/
def processedRow (args : Args) (wanted : Option (List String)) (row : Row) : Bool :=
  decide (row_id_of args row ≠ "") && passes wanted (row_id_of args row) &&
    decide (ssml_of args row ≠ "")

/-- A row that increments the skipped counter: empty identifier (line 158),
or an identifier that passes the filter but empty markup (line 168). -/
def skippedRow (args : Args) (wanted : Option (List String)) (row : Row) : Bool :=
  decide (row_id_of args row = "") ||
    (decide (row_id_of args row ≠ "") && passes wanted (row_id_of args row) &&
      decide (ssml_of args row = ""))

/-- The request main builds for a row (generate.py lines 173-178). -/
def reqOf (args : Args) (row : Row) : TtsRequest :=
  tts_request args.api_key args.voice args.lang (ssml_of args row)

/-- The decoded bytes the successful remote call yields for a row. -/
def wavOf (b64decode : String → Bytes) (http_post : TtsRequest → HttpResp)
    (args : Args) (row : Row) : Bytes :=
  b64decode (http_post (reqOf args row)).audioContent

/-- The deterministic output path outdir/id.extension (generate.py lines
182, 191, 194, 200). -/
def out_path_for (outdir id ext : String) : String :=
  outdir ++ "/" ++ id ++ "." ++ ext

/-- The per-row output step of main (generate.py lines 181-205): direct
write for wav without ffmpeg; conversion through the template for wav with
ffmpeg and for mp3/ogg with delete-original-wav; for mp3/ogg without it,
a kept intermediate wav followed by the bare ffmpeg command. Returns the
events, an optional raised error, and the advanced temporary counter. -/
def row_output (args : Args) (row_id : String) (wav_bytes : Bytes) (tmpCtr : Nat) :
    (List FsEvent × Option String) × Nat :=
  if args.format = "wav" ∧ args.use_ffmpeg = false then
    ((write_direct_wav wav_bytes (out_path_for args.outdir row_id "wav"), none), tmpCtr)
  else if args.format = "wav" ∧ args.use_ffmpeg = true then
    convert_wav_bytes_with_ffmpeg wav_bytes (out_path_for args.outdir row_id "wav") "wav" true tmpCtr
  else if args.delete_original_wav = true then
    convert_wav_bytes_with_ffmpeg wav_bytes (out_path_for args.outdir row_id args.format)
      args.format true tmpCtr
  else
    let intermediate_wav := out_path_for args.outdir row_id "wav"
    let out_path := out_path_for args.outdir row_id args.format
    ((write_direct_wav wav_bytes intermediate_wav ++
        [FsEvent.ffmpegRun (keep_intermediate_cmd intermediate_wav out_path)], none), tmpCtr)

/-- How many temporary files one processed row consumes: one exactly when
the row goes through convert_wav_bytes_with_ffmpeg. -/
def usesTmpN (args : Args) : Nat :=
  if args.format = "wav" ∧ args.use_ffmpeg = false then 0
  else if args.format = "wav" ∧ args.use_ffmpeg = true then 1
  else if args.delete_original_wav = true then 1
  else 0

/-- The events one processed row emits. -/
def rowEvents (args : Args) (row_id : String) (wav_bytes : Bytes) (tmpCtr : Nat) :
    List FsEvent :=
  ((row_output args row_id wav_bytes tmpCtr).1).1

/-- The mutable state of the row loop of main (generate.py lines 141-207):
the two counters, the set of seen identifiers, the requests submitted so
far, the file-system events so far, the temporary-file counter, and the
pending uncaught exception, if any. -/
structure LoopState where
  generated : Nat
  skipped : Nat
  seen_ids : List String
  calls : List TtsRequest
  events : List FsEvent
  tmpCtr : Nat
  aborted : Option String

/-- Set insertion for the seen-ids set, modelled as a duplicate-free list. -/
def addSeen (seen : List String) (x : String) : List String :=
  if x ∈ seen then seen else seen ++ [x]

/-- One iteration of the row loop (generate.py lines 156-207). Once an
exception is pending the remaining rows are not visited, which the aborted
guard models. -/
def step (args : Args) (wanted : Option (List String)) (b64decode : String → Bytes)
    (http_post : TtsRequest → HttpResp) (st : LoopState) (row : Row) : LoopState :=
  match st.aborted with
  | some _ => st
  | none =>
    let row_id := row_id_of args row
    if row_id = "" then { st with skipped := st.skipped + 1 }
    else
      let st1 := { st with seen_ids := addSeen st.seen_ids row_id }
      if passes wanted row_id = false then st1
      else
        let ssml := ssml_of args row
        if ssml = "" then { st1 with skipped := st1.skipped + 1 }
        else
          let pr := synthesize_ssml_wav b64decode http_post args.api_key args.voice args.lang ssml
          let st2 := { st1 with calls := st1.calls ++ pr.1 }
          match pr.2 with
          | Except.error m => { st2 with aborted := some m }
          | Except.ok wav_bytes =>
            let ro := row_output args row_id wav_bytes st2.tmpCtr
            let st3 := { st2 with events := st2.events ++ (ro.1).1, tmpCtr := ro.2 }
            match (ro.1).2 with
            | some m => { st3 with aborted := some m }
            | none => { st3 with generated := st3.generated + 1 }

/-- The loop state before the first row (generate.py lines 141-143). -/
def initState : LoopState :=
  { generated := 0, skipped := 0, seen_ids := [], calls := [], events := [],
    tmpCtr := 0, aborted := none }

/-- The full event list of a completed loop, recursing over the rows and
threading the temporary counter: the specification-side characterisation
the fold is proved equal to. -/
def runEvents (args : Args) (wanted : Option (List String)) (b64decode : String → Bytes)
    (http_post : TtsRequest → HttpResp) : List Row → Nat → List FsEvent
  | [], _ => []
  | r :: rs, ctr =>
    if processedRow args wanted r then
      rowEvents args (row_id_of args r) (wavOf b64decode http_post args r) ctr ++
        runEvents args wanted b64decode http_post rs (ctr + usesTmpN args)
    else runEvents args wanted b64decode http_post rs ctr

/-- How one row updates the seen-ids set (generate.py lines 157-162). -/
def seenStep (args : Args) (seen : List String) (r : Row) : List String :=
  if row_id_of args r = "" then seen else addSeen seen (row_id_of args r)

/-- How the process run ends: a sys.exit with a code, an uncaught exception
with a message, or normal completion. -/
inductive Outcome
  | exited (code : Nat)
  | raised (msg : String)
  | completed
deriving DecidableEq, Repr

/-- The exit code of an outcome, when the outcome is a sys.exit. -/
def exitCodeOf : Outcome → Option Nat
  | Outcome.exited c => some c
  | _ => none

/-- The observable result of one invocation of main. -/
structure RunResult where
  outcome : Outcome
  calls : List TtsRequest
  events : List FsEvent
  generated : Nat
  skipped : Nat
  not_found_report : List String

/-- Insertion into a sorted list of strings, for the sorted() of line 210. -/
def insertSorted (x : String) : List String → List String
  | [] => [x]
  | y :: ys => if x < y then x :: y :: ys else y :: insertSorted x ys

/-- Insertion sort on strings, modelling sorted() of generate.py line 210. -/
def sortStrings (l : List String) : List String := l.foldr insertSorted []

/-- The Python repr of a list of strings, as interpolated into the missing
column messages of generate.py lines 152 and 154. -/
def pyListRepr (l : List String) : String :=
  "[" ++ String.intercalate ", " (l.map (fun s => "\x27" ++ s ++ "\x27")) ++ "]"

/-- The KeyError message of generate.py lines 152 and 154. -/
def missing_col_msg (which col : String) (fieldnames : List String) : String :=
  "Missing " ++ which ++ " column \x27" ++ col ++ "\x27. Found: " ++ pyListRepr fieldnames

/-- Embeds main (generate.py lines 97-214): parse the filter, the three
configuration checks with their sys.exit codes, the header checks that
raise, then the row loop; afterwards the not-found report of lines 209-212.
The remote service and base64 decoding are oracles; a run in which a remote
call returns a non-200 status or a conversion fails ends as raised, the
remaining rows unvisited. -/
def main (args : Args) (env : Env) (b64decode : String → Bytes)
    (http_post : TtsRequest → HttpResp) : RunResult :=
  let wanted := parse_ids args.ids
  if env.csv_exists = false then
    { outcome := Outcome.exited 1, calls := [], events := [], generated := 0,
      skipped := 0, not_found_report := [] }
  else if (args.format = "mp3" ∨ args.format = "ogg") ∧ args.use_ffmpeg = false then
    { outcome := Outcome.exited 2, calls := [], events := [], generated := 0,
      skipped := 0, not_found_report := [] }
  else if args.use_ffmpeg = true ∧ env.ffmpeg_on_path = false then
    { outcome := Outcome.exited 3, calls := [], events := [], generated := 0,
      skipped := 0, not_found_report := [] }
  else if env.fieldnames = [] then
    { outcome := Outcome.raised "CSV appears empty or missing header row.",
      calls := [], events := [], generated := 0, skipped := 0, not_found_report := [] }
  else if args.id_col ∉ env.fieldnames then
    { outcome := Outcome.raised (missing_col_msg "id" args.id_col env.fieldnames),
      calls := [], events := [], generated := 0, skipped := 0, not_found_report := [] }
  else if args.ssml_col ∉ env.fieldnames then
    { outcome := Outcome.raised (missing_col_msg "SSML" args.ssml_col env.fieldnames),
      calls := [], events := [], generated := 0, skipped := 0, not_found_report := [] }
  else
    let fin := env.rows.foldl (step args wanted b64decode http_post) initState
    match fin.aborted with
    | some m =>
      { outcome := Outcome.raised m, calls := fin.calls, events := fin.events,
        generated := fin.generated, skipped := fin.skipped, not_found_report := [] }
    | none =>
      let nf := match wanted with
        | some w => sortStrings (w.filter (fun x => decide (x ∉ fin.seen_ids)))
        | none => []
      { outcome := Outcome.completed, calls := fin.calls, events := fin.events,
        generated := fin.generated, skipped := fin.skipped, not_found_report := nf }

/-- Disk update of one direct write: the file at the path now holds the
bytes, any previous content overwritten. -/
def setFile (disk : List (String × Bytes)) (p : String) (b : Bytes) : List (String × Bytes) :=
  (disk.filter (fun e => !(e.1 == p))) ++ [(p, b)]

/-- Disk update of one event. An ffmpeg invocation creates the file named
by the last command argument, with transcoded bytes given by the ffout
oracle. -/
def applyEvent (ffout : List String → Bytes) (disk : List (String × Bytes)) :
    FsEvent → List (String × Bytes)
  | FsEvent.write p b => setFile disk p b
  | FsEvent.ffmpegRun cmd => setFile disk (cmd.getLastD "") (ffout cmd)
  | FsEvent.remove p => disk.filter (fun e => !(e.1 == p))

/-- The disk contents after a run, starting from an empty disk. -/
def run_disk (ffout : List String → Bytes) (events : List FsEvent) : List (String × Bytes) :=
  events.foldl (applyEvent ffout) []

/-- Whether the disk holds a file at the path. -/
def hasFile (disk : List (String × Bytes)) (p : String) : Bool :=
  disk.any (fun e => e.1 == p)

/-- How one event updates the presence of the file at path p. -/
def presenceUpd (p : String) (e : FsEvent) (b : Bool) : Bool :=
  match e with
  | FsEvent.write q _ => if q = p then true else b
  | FsEvent.ffmpegRun cmd => if cmd.getLastD "" = p then true else b
  | FsEvent.remove q => if q = p then false else b

/-- Presence of the file at path p after a list of events, given its
presence before. -/
def finalHas (p : String) : List FsEvent → Bool → Bool
  | [], b => b
  | e :: es, b => finalHas p es (presenceUpd p e b)

/-- The output-directory paths one processed row leaves behind, branch by
branch: its single output file, plus the kept intermediate wav in the
keep-intermediate branch. -/
def rowOutPaths (args : Args) (id : String) : List String :=
  if args.format = "wav" then [out_path_for args.outdir id "wav"]
  else if args.delete_original_wav = true then [out_path_for args.outdir id args.format]
  else [out_path_for args.outdir id "wav", out_path_for args.outdir id args.format]

/-- The argparse choices constraint on the format argument. -/
def validFormat (args : Args) : Prop :=
  args.format = "wav" ∨ args.format = "mp3" ∨ args.format = "ogg"

/-- Every remote call succeeds: the all-dependencies-succeed assumption of
the spec. -/
def okRemote (http_post : TtsRequest → HttpResp) : Prop :=
  ∀ req, (http_post req).status_code = 200

/-- The run gets past every configuration and header check and enters the
row loop. -/
def reachesLoop (args : Args) (env : Env) : Prop :=
  env.csv_exists = true ∧
  ¬ ((args.format = "mp3" ∨ args.format = "ogg") ∧ args.use_ffmpeg = false) ∧
  ¬ (args.use_ffmpeg = true ∧ env.ffmpeg_on_path = false) ∧
  env.fieldnames ≠ [] ∧
  args.id_col ∈ env.fieldnames ∧
  args.ssml_col ∈ env.fieldnames

/-- Temporary-file paths never land on output-directory paths: the mkstemp
freshness guarantee restricted to what the theorems need. -/
def tmpDisjoint (outdir : String) : Prop :=
  ∀ k id ext, tmp_wav_path k ≠ out_path_for outdir id ext

/-- A deterministic stand-in for base64 decoding in the concrete runs: the
code points of the payload characters. -/
def oracle_b64 : String → Bytes := fun s => s.data.map Char.toNat

/-- A remote oracle whose every response succeeds, echoing the request
markup as the base64 payload. -/
def oracle_http200 : TtsRequest → HttpResp :=
  fun req => { status_code := 200, audioContent := req.ssml, jsonRepr? := some "j", text := "t" }

/-- A fixed transcoder output for the concrete runs. -/
def oracle_ffout : List String → Bytes := fun _ => [0]

/-- The single data row of the baseline environment. -/
def row1 : Row := [("id", "1"), ("ssml", "<speak>hi</speak>")]

/-- A baseline concrete invocation: wav output, no transcoder, no filter,
default column names. -/
def args_base : Args :=
  { api_key := "K", outdir := "out", ids := none, id_col := "id", ssml_col := "ssml",
    voice := "v", lang := "en-GB", format := "wav", use_ffmpeg := false,
    delete_original_wav := false }

/-- A baseline one-row environment with dataset present, transcoder on the
PATH and both required columns in the header. -/
def env_base : Env :=
  { csv_exists := true, ffmpeg_on_path := true, fieldnames := ["id", "ssml"],
    rows := [row1] }

/-- Concrete invocation requesting mp3 with the transcoder enabled and the
intermediate wav kept (the delete flag left at its default, off). -/
def args_c1 : Args := { args_base with format := "mp3", use_ffmpeg := true }

/-- Concrete invocation whose id column name is absent from the header. -/
def args_c3 : Args := { args_base with id_col := "identifier" }

/-- Concrete invocation requesting a lossy format without the transcoder
flag. -/
def args_c5 : Args := { args_base with format := "mp3" }

/-- Concrete invocation with an identifier filter excluding the only row. -/
def args_c6 : Args := { args_base with ids := some "2" }

/-- Environment whose only row has an empty markup cell. -/
def env_c6 : Env := { env_base with rows := [[("id", "1"), ("ssml", "")]] }

/-- Concrete invocation with the filter of the worked example in the spec. -/
def args_c7 : Args := { args_base with ids := some "2,5" }

/-- Environment with rows for identifiers 1, 2 and 3. -/
def env_c7 : Env :=
  { env_base with rows := [[("id", "1"), ("ssml", "x")], [("id", "2"), ("ssml", "y")],
      [("id", "3"), ("ssml", "z")]] }

/-- Concrete invocation whose ids argument is only commas and whitespace. -/
def args_c10 : Args := { args_base with ids := some " ,, , " }

/-- With a valid format, the per-row output step never raises: each branch
reaches a supported ffmpeg template or writes directly. -/
theorem row_output_err (args : Args) (h : validFormat args) (id : String) (w : Bytes)
    (c : Nat) : ((row_output args id w c).1).2 = none := by
  rcases h with h | h | h <;>
    by_cases hff : args.use_ffmpeg = true <;>
      by_cases hdel : args.delete_original_wav = true <;>
        simp [row_output, convert_wav_bytes_with_ffmpeg, ffmpeg_cmd, h, hff, hdel,
          eq_false_of_ne_true, write_direct_wav]

/-- The conversion helper always advances the temporary counter by one. -/
theorem convert_ctr (w : Bytes) (out fmt : String) (dt : Bool) (c : Nat) :
    (convert_wav_bytes_with_ffmpeg w out fmt dt c).2 = c + 1 := by
  unfold convert_wav_bytes_with_ffmpeg
  cases h : ffmpeg_cmd fmt (tmp_wav_path c) out <;> simp [h]

/-- The per-row output step advances the temporary counter by the number of
temporary files the configuration consumes. -/
theorem row_output_ctr (args : Args) (id : String) (w : Bytes) (c : Nat) :
    (row_output args id w c).2 = c + usesTmpN args := by
  by_cases h1 : args.format = "wav" ∧ args.use_ffmpeg = false <;>
    by_cases h2 : args.format = "wav" ∧ args.use_ffmpeg = true <;>
      by_cases hdel : args.delete_original_wav = true <;>
        simp [row_output, usesTmpN, convert_ctr, h1, h2, hdel]

/-- Loop step on a row with an empty stripped identifier (generate.py lines
157-160): only the skipped counter moves. -/
theorem step_empty_id (args : Args) (wanted : Option (List String)) (b64 : String → Bytes)
    (http : TtsRequest → HttpResp) (st : LoopState) (row : Row)
    (hab : st.aborted = none) (hid : row_id_of args row = "") :
    step args wanted b64 http st row = { st with skipped := st.skipped + 1 } := by
  simp [step, hab, hid]

/-- Loop step on a row whose identifier misses the filter (generate.py
lines 162-165): the identifier is recorded as seen and nothing else moves. -/
theorem step_filtered (args : Args) (wanted : Option (List String)) (b64 : String → Bytes)
    (http : TtsRequest → HttpResp) (st : LoopState) (row : Row)
    (hab : st.aborted = none) (hid : row_id_of args row ≠ "")
    (hpass : passes wanted (row_id_of args row) = false) :
    step args wanted b64 http st row =
      { st with seen_ids := addSeen st.seen_ids (row_id_of args row) } := by
  simp [step, hab, hid, hpass]

/-- Loop step on a row passing the filter but with empty stripped markup
(generate.py lines 167-171): seen and skipped move. -/
theorem step_empty_ssml (args : Args) (wanted : Option (List String)) (b64 : String → Bytes)
    (http : TtsRequest → HttpResp) (st : LoopState) (row : Row)
    (hab : st.aborted = none) (hid : row_id_of args row ≠ "")
    (hpass : passes wanted (row_id_of args row) = true) (hss : ssml_of args row = "") :
    step args wanted b64 http st row =
      { st with seen_ids := addSeen st.seen_ids (row_id_of args row),
                skipped := st.skipped + 1 } := by
  simp [step, hab, hid, hpass, hss]

/-- Loop step on a processed row when the remote call succeeds and the
format is valid (generate.py lines 173-207): the request is submitted, the
output events are emitted, the counters advance. -/
theorem step_processed (args : Args) (wanted : Option (List String)) (b64 : String → Bytes)
    (http : TtsRequest → HttpResp) (st : LoopState) (row : Row)
    (hab : st.aborted = none) (hid : row_id_of args row ≠ "")
    (hpass : passes wanted (row_id_of args row) = true) (hss : ssml_of args row ≠ "")
    (hok : okRemote http) (hfmt : validFormat args) :
    step args wanted b64 http st row =
      { st with seen_ids := addSeen st.seen_ids (row_id_of args row),
                calls := st.calls ++ [reqOf args row],
                events := st.events ++
                  rowEvents args (row_id_of args row) (wavOf b64 http args row) st.tmpCtr,
                tmpCtr := st.tmpCtr + usesTmpN args,
                generated := st.generated + 1 } := by
  have h200 := hok (tts_request args.api_key args.voice args.lang (ssml_of args row))
  have herr := row_output_err args hfmt (row_id_of args row)
    (b64 (http (tts_request args.api_key args.voice args.lang (ssml_of args row))).audioContent)
    st.tmpCtr
  have hctr := row_output_ctr args (row_id_of args row)
    (b64 (http (tts_request args.api_key args.voice args.lang (ssml_of args row))).audioContent)
    st.tmpCtr
  simp [step, hab, hid, hpass, hss, synthesize_ssml_wav, h200, rowEvents, wavOf, reqOf,
    herr, hctr]

/-- The row loop of main, characterised component by component: with a
valid format and a remote service that always succeeds, the loop never
aborts, the generated counter counts the processed rows, the skipped
counter counts the skipped rows, the submitted requests are exactly those
of the processed rows in order, the seen set accumulates the non-empty
identifiers, the temporary counter advances per conversion, and the events
are the concatenation of the per-row events. -/
theorem foldl_step_spec (args : Args) (wanted : Option (List String)) (b64 : String → Bytes)
    (http : TtsRequest → HttpResp) (hok : okRemote http) (hfmt : validFormat args)
    (rows : List Row) :
    ∀ (st : LoopState), st.aborted = none →
      (rows.foldl (step args wanted b64 http) st).aborted = none ∧
      (rows.foldl (step args wanted b64 http) st).generated =
        st.generated + (rows.filter (processedRow args wanted)).length ∧
      (rows.foldl (step args wanted b64 http) st).skipped =
        st.skipped + (rows.filter (skippedRow args wanted)).length ∧
      (rows.foldl (step args wanted b64 http) st).calls =
        st.calls ++ (rows.filter (processedRow args wanted)).map (reqOf args) ∧
      (rows.foldl (step args wanted b64 http) st).seen_ids =
        rows.foldl (seenStep args) st.seen_ids ∧
      (rows.foldl (step args wanted b64 http) st).tmpCtr =
        st.tmpCtr + usesTmpN args * (rows.filter (processedRow args wanted)).length ∧
      (rows.foldl (step args wanted b64 http) st).events =
        st.events ++ runEvents args wanted b64 http rows st.tmpCtr := by
  induction rows with
  | nil => intro st hab; simp [runEvents, hab]
  | cons r rs ih =>
    intro st hab
    by_cases hid : row_id_of args r = ""
    · have hproc : processedRow args wanted r = false := by simp [processedRow, hid]
      have hskip : skippedRow args wanted r = true := by simp [skippedRow, hid]
      rw [List.foldl_cons, step_empty_id args wanted b64 http st r hab hid]
      obtain ⟨a1, a2, a3, a4, a5, a6, a7⟩ :=
        ih { st with skipped := st.skipped + 1 } hab
      refine ⟨a1, ?_, ?_, ?_, ?_, ?_, ?_⟩
      · simp [a2, hproc]
      · simp [a3, hskip]; omega
      · simp [a4, hproc]
      · simp [a5, seenStep, hid]
      · simp [a6, hproc]
      · simp [a7, runEvents, hproc]
    · by_cases hpass : passes wanted (row_id_of args r) = true
      · by_cases hss : ssml_of args r = ""
        · have hproc : processedRow args wanted r = false := by simp [processedRow, hss]
          have hskip : skippedRow args wanted r = true := by
            simp [skippedRow, hid, hpass, hss]
          rw [List.foldl_cons, step_empty_ssml args wanted b64 http st r hab hid hpass hss]
          obtain ⟨a1, a2, a3, a4, a5, a6, a7⟩ :=
            ih { st with seen_ids := addSeen st.seen_ids (row_id_of args r),
                         skipped := st.skipped + 1 } hab
          refine ⟨a1, ?_, ?_, ?_, ?_, ?_, ?_⟩
          · simp [a2, hproc]
          · simp [a3, hskip]; omega
          · simp [a4, hproc]
          · simp [a5, seenStep, hid]
          · simp [a6, hproc]
          · simp [a7, runEvents, hproc]
        · have hproc : processedRow args wanted r = true := by
            simp [processedRow, hid, hpass, hss]
          rw [List.foldl_cons,
            step_processed args wanted b64 http st r hab hid hpass hss hok hfmt]
          obtain ⟨a1, a2, a3, a4, a5, a6, a7⟩ :=
            ih { st with seen_ids := addSeen st.seen_ids (row_id_of args r),
                         calls := st.calls ++ [reqOf args r],
                         events := st.events ++ rowEvents args (row_id_of args r)
                           (wavOf b64 http args r) st.tmpCtr,
                         tmpCtr := st.tmpCtr + usesTmpN args,
                         generated := st.generated + 1 } hab
          refine ⟨a1, ?_, ?_, ?_, ?_, ?_, ?_⟩
          · simp [a2, hproc]; omega
          · simp [a3, skippedRow, hid, hpass, hss]
          · simp [a4, hproc]
          · simp [a5, seenStep, hid]
          · simp [a6, hproc, Nat.mul_succ]; omega
          · simp [a7, runEvents, hproc]
      · have hproc : processedRow args wanted r = false := by
          simp [processedRow, Bool.eq_false_iff.mpr hpass]
        have hskip : skippedRow args wanted r = false := by
          simp [skippedRow, hid, Bool.eq_false_iff.mpr hpass]
        rw [List.foldl_cons, step_filtered args wanted b64 http st r hab hid
          (Bool.eq_false_iff.mpr hpass)]
        obtain ⟨a1, a2, a3, a4, a5, a6, a7⟩ :=
          ih { st with seen_ids := addSeen st.seen_ids (row_id_of args r) } hab
        refine ⟨a1, ?_, ?_, ?_, ?_, ?_, ?_⟩
        · simp [a2, hproc]
        · simp [a3, hskip]
        · simp [a4, hproc]
        · simp [a5, seenStep, hid]
        · simp [a6, hproc]
        · simp [a7, runEvents, hproc]

/-- A run that passes every configuration and header check completes, and
each observable component of the result is determined by the row list. -/
theorem main_run (args : Args) (env : Env) (b64 : String → Bytes) (http : TtsRequest → HttpResp)
    (hr : reachesLoop args env) (hfmt : validFormat args) (hok : okRemote http) :
    (main args env b64 http).outcome = Outcome.completed ∧
    (main args env b64 http).calls =
      (env.rows.filter (processedRow args (parse_ids args.ids))).map (reqOf args) ∧
    (main args env b64 http).events =
      runEvents args (parse_ids args.ids) b64 http env.rows 0 ∧
    (main args env b64 http).generated =
      (env.rows.filter (processedRow args (parse_ids args.ids))).length ∧
    (main args env b64 http).skipped =
      (env.rows.filter (skippedRow args (parse_ids args.ids))).length ∧
    (main args env b64 http).not_found_report =
      (match parse_ids args.ids with
       | some w => sortStrings (w.filter (fun x =>
           decide (x ∉ env.rows.foldl (seenStep args) [])))
       | none => []) := by
  obtain ⟨h1, h2, h3, h4, h5, h6⟩ := hr
  obtain ⟨a1, a2, a3, a4, a5, a6, a7⟩ :=
    foldl_step_spec args (parse_ids args.ids) b64 http hok hfmt env.rows initState rfl
  simp only [initState] at a1 a2 a3 a4 a5 a6 a7
  simp [main, h1, h2, h3, h4, h5, h6, a1, a2, a3, a4, a5, a7, initState]

/-- Membership in the seen-ids set insertion. -/
theorem mem_addSeen (s : List String) (x y : String) :
    y ∈ addSeen s x ↔ y ∈ s ∨ y = x := by
  unfold addSeen
  by_cases h : x ∈ s
  · simp only [if_pos h]
    constructor
    · exact Or.inl
    · rintro (hy | rfl)
      · exact hy
      · exact h
  · simp [if_neg h]

/-- Membership in the accumulated seen-ids set: the starting elements plus
every non-empty stripped identifier occurring among the rows. -/
theorem mem_foldl_seenStep (args : Args) (rows : List Row) :
    ∀ (s0 : List String) (x : String),
      x ∈ rows.foldl (seenStep args) s0 ↔
        x ∈ s0 ∨ ∃ r ∈ rows, row_id_of args r = x ∧ x ≠ "" := by
  induction rows with
  | nil => intro s0 x; simp
  | cons r rs ih =>
    intro s0 x
    rw [List.foldl_cons, ih]
    by_cases hid : row_id_of args r = ""
    · simp only [seenStep, if_pos hid]
      constructor
      · rintro (h | ⟨q, hq, h1, h2⟩)
        · exact Or.inl h
        · exact Or.inr ⟨q, List.mem_cons_of_mem _ hq, h1, h2⟩
      · rintro (h | ⟨q, hq, h1, h2⟩)
        · exact Or.inl h
        · rcases List.mem_cons.mp hq with rfl | hq
          · exact absurd (h1.symm.trans hid) h2
          · exact Or.inr ⟨q, hq, h1, h2⟩
    · simp only [seenStep, if_neg hid]
      rw [mem_addSeen]
      constructor
      · rintro ((h | h) | ⟨q, hq, h1, h2⟩)
        · exact Or.inl h
        · subst h
          exact Or.inr ⟨r, List.mem_cons_self _ _, rfl, hid⟩
        · exact Or.inr ⟨q, List.mem_cons_of_mem _ hq, h1, h2⟩
      · rintro (h | ⟨q, hq, h1, h2⟩)
        · exact Or.inl (Or.inl h)
        · rcases List.mem_cons.mp hq with rfl | hq
          · exact Or.inl (Or.inr h1.symm)
          · exact Or.inr ⟨q, hq, h1, h2⟩

/-- Every member of a parsed filter set is a non-empty token. -/
theorem parse_ids_nonempty (o : Option String) (w : List String)
    (h : parse_ids o = some w) : ∀ x ∈ w, x ≠ "" := by
  intro x hx
  cases o with
  | none => simp [parse_ids] at h
  | some s =>
    simp only [parse_ids] at h
    by_cases hs : s = ""
    · simp [hs] at h
    · rw [if_neg hs] at h
      split at h
      · exact absurd h (by simp)
      · injection h with h2
        subst h2
        have hx2 := List.mem_dedup.mp hx
        have hx3 := List.mem_filter.mp hx2
        simpa using hx3.2

/-- The empty disk holds no file. -/
theorem hasFile_nil (p : String) : hasFile [] p = false := rfl

/-- File presence in a cons disk. -/
theorem hasFile_cons (e : String × Bytes) (es : List (String × Bytes)) (p : String) :
    hasFile (e :: es) p = ((e.1 == p) || hasFile es p) := by
  simp [hasFile]

/-- File presence across a disk concatenation. -/
theorem hasFile_append (l1 l2 : List (String × Bytes)) (p : String) :
    hasFile (l1 ++ l2) p = (hasFile l1 p || hasFile l2 p) := by
  simp [hasFile, List.any_append]

/-- Removing path q from a disk: presence of p becomes false at q and is
untouched elsewhere. -/
theorem hasFile_filterNe (q p : String) (disk : List (String × Bytes)) :
    hasFile (disk.filter (fun e => !(e.1 == q))) p =
      if q = p then false else hasFile disk p := by
  induction disk with
  | nil => by_cases h : q = p <;> simp [hasFile_nil, h]
  | cons e es ih =>
    by_cases h2 : q = p
    · subst h2
      by_cases h1 : e.1 = q <;> simp [List.filter_cons, hasFile_cons, h1, ih]
    · by_cases h1 : e.1 = q <;> simp [List.filter_cons, hasFile_cons, h1, h2, ih]

/-- Overwriting path q on a disk: p is now present at q and untouched
elsewhere. -/
theorem hasFile_setFile (disk : List (String × Bytes)) (q p : String) (b : Bytes) :
    hasFile (setFile disk q b) p = if q = p then true else hasFile disk p := by
  unfold setFile
  by_cases h : q = p <;>
    simp [hasFile_append, hasFile_cons, hasFile_nil, hasFile_filterNe, h]

/-- One event changes file presence exactly as presenceUpd says. -/
theorem hasFile_applyEvent (ffout : List String → Bytes) (disk : List (String × Bytes))
    (e : FsEvent) (p : String) :
    hasFile (applyEvent ffout disk e) p = presenceUpd p e (hasFile disk p) := by
  cases e <;> simp [applyEvent, presenceUpd, hasFile_setFile, hasFile_filterNe]

/-- File presence after folding events equals the finalHas recursion. -/
theorem hasFile_foldl (ffout : List String → Bytes) (evs : List FsEvent) :
    ∀ (disk : List (String × Bytes)) (p : String),
      hasFile (evs.foldl (applyEvent ffout) disk) p = finalHas p evs (hasFile disk p) := by
  induction evs with
  | nil => intro disk p; rfl
  | cons e es ih =>
    intro disk p
    rw [List.foldl_cons, ih, finalHas, hasFile_applyEvent]

/-- File presence on the final disk of a run. -/
theorem hasFile_run_disk (ffout : List String → Bytes) (evs : List FsEvent) (p : String) :
    hasFile (run_disk ffout evs) p = finalHas p evs false := by
  rw [run_disk, hasFile_foldl, hasFile_nil]

/-- The finalHas recursion distributes over event concatenation. -/
theorem finalHas_append (p : String) (l1 l2 : List FsEvent) :
    ∀ b, finalHas p (l1 ++ l2) b = finalHas p l2 (finalHas p l1 b) := by
  induction l1 with
  | nil => intro b; rfl
  | cons e es ih => intro b; simp [finalHas, ih]

/-- The last element of every instantiated ffmpeg template is the output
path. -/
theorem ffmpeg_cmd_last (fmt tmp out : String) (c : List String)
    (h : ffmpeg_cmd fmt tmp out = some c) : c.getLastD "" = out := by
  unfold ffmpeg_cmd at h
  split at h
  · cases h; rfl
  · split at h
    · cases h; rfl
    · split at h
      · cases h; rfl
      · cases h

/-- What one processed row leaves on the disk, seen from a fixed path p
that is not a temporary path: exactly its rowOutPaths become present, and
nothing else changes. -/
theorem finalHas_rowEvents (args : Args) (hfmt : validFormat args) (p id : String)
    (w : Bytes) (ctr : Nat) (b : Bool) (hp : ∀ k, tmp_wav_path k ≠ p) :
    finalHas p (rowEvents args id w ctr) b =
      if p ∈ rowOutPaths args id then true else b := by
  have htmp : ¬ (tmp_wav_path ctr = p) := hp ctr
  by_cases hw : args.format = "wav"
  · by_cases hff : args.use_ffmpeg = true
    · simp [rowEvents, row_output, hw, hff, convert_wav_bytes_with_ffmpeg, ffmpeg_cmd,
        finalHas, presenceUpd, htmp, rowOutPaths]
      by_cases h2 : out_path_for args.outdir id "wav" = p
      · simp [h2, List.getLastD]
      · simp [h2, List.getLastD]
        exact fun h => absurd h.symm h2
    · simp [rowEvents, row_output, hw, eq_false_of_ne_true hff, write_direct_wav,
        finalHas, presenceUpd, rowOutPaths]
      by_cases h2 : out_path_for args.outdir id "wav" = p
      · simp [h2]
      · simp [h2]
        exact fun h => absurd h.symm h2
  · have hfmt2 : args.format = "mp3" ∨ args.format = "ogg" := by
      rcases hfmt with h | h | h
      · exact absurd h hw
      · exact Or.inl h
      · exact Or.inr h
    have hcmd : ∃ c, ffmpeg_cmd args.format (tmp_wav_path ctr)
        (out_path_for args.outdir id args.format) = some c ∧ c.getLastD "" =
          out_path_for args.outdir id args.format := by
      rcases hfmt2 with h | h
      · refine ⟨["ffmpeg", "-y", "-i", tmp_wav_path ctr, "-codec:a", "libmp3lame",
          "-q:a", "2", out_path_for args.outdir id args.format], ?_, rfl⟩
        simp [ffmpeg_cmd, h]
      · refine ⟨["ffmpeg", "-y", "-i", tmp_wav_path ctr, "-codec:a", "libvorbis",
          "-q:a", "5", out_path_for args.outdir id args.format], ?_, rfl⟩
        simp [ffmpeg_cmd, h]
    by_cases hdel : args.delete_original_wav = true
    · obtain ⟨c, hc, hlast⟩ := hcmd
      rw [List.getLastD_eq_getLast?] at hlast
      simp [rowEvents, row_output, hw, hdel, convert_wav_bytes_with_ffmpeg, hc,
        finalHas, presenceUpd, htmp, rowOutPaths, hlast]
      by_cases h2 : out_path_for args.outdir id args.format = p
      · simp [h2]
      · simp [h2]
        exact fun h => absurd h.symm h2
    · simp [rowEvents, row_output, hw, hdel, write_direct_wav, keep_intermediate_cmd,
        finalHas, presenceUpd, rowOutPaths, List.getLastD]
      by_cases h2 : out_path_for args.outdir id "wav" = p
      · simp [h2]
      · by_cases h3 : out_path_for args.outdir id args.format = p
        · simp [h2, h3]
        · simp [h2, h3]
          rintro (h | h)
          · exact absurd h.symm h2
          · exact absurd h.symm h3

/-- Presence after the events of a whole loop: a path that is not a
temporary path is present exactly when some processed row has it among its
output paths (or it was present before). -/
theorem finalHas_runEvents (args : Args) (wanted : Option (List String))
    (b64 : String → Bytes) (http : TtsRequest → HttpResp) (hfmt : validFormat args)
    (p : String) (hp : ∀ k, tmp_wav_path k ≠ p) (rows : List Row) :
    ∀ (ctr : Nat) (b : Bool),
      finalHas p (runEvents args wanted b64 http rows ctr) b =
        (b || rows.any (fun r => processedRow args wanted r &&
          decide (p ∈ rowOutPaths args (row_id_of args r)))) := by
  induction rows with
  | nil => intro ctr b; simp [runEvents, finalHas]
  | cons r rs ih =>
    intro ctr b
    by_cases hpr : processedRow args wanted r = true
    · rw [runEvents, if_pos hpr, finalHas_append,
        finalHas_rowEvents args hfmt p (row_id_of args r) _ ctr b hp, ih]
      by_cases h2 : p ∈ rowOutPaths args (row_id_of args r) <;>
        simp [h2, hpr]
    · rw [runEvents, if_neg (by simp [hpr]), ih]
      simp [hpr]

/-- The deterministic output path determines the identifier and, for
extensions of equal length, the extension. -/
theorem out_path_inj (d i1 e1 i2 e2 : String) (hlen : e1.length = e2.length)
    (h : out_path_for d i1 e1 = out_path_for d i2 e2) : i1 = i2 ∧ e1 = e2 := by
  have hd := congrArg String.data h
  simp only [out_path_for, String.data_append, List.append_assoc] at hd
  have h1 := List.append_cancel_left hd
  have h2 := List.append_cancel_left h1
  have hlen2 : (".".data ++ e1.data).length = (".".data ++ e2.data).length := by
    simp only [List.length_append]
    have hlen3 : e1.data.length = e2.data.length := hlen
    omega
  obtain ⟨hi, he⟩ := List.append_inj' h2 hlen2
  refine ⟨String.ext hi, ?_⟩
  exact String.ext (List.append_cancel_left he)

/-- Temporary paths live under the system temporary directory, so they are
distinct from every path of the output directory named out. -/
theorem tmpDisjoint_out : tmpDisjoint "out" := by
  intro k id ext h
  have hd := congrArg (fun s => s.data.head?) h
  simp only [tmp_wav_path, out_path_for, String.data_append] at hd
  rw [List.head?_append, List.head?_append] at hd
  simp at hd

/-- A string of separators only yields no tokens. -/
theorem splitAux_sep (cs : List Char) (h : ∀ c ∈ cs, sep c = true) :
    splitAux cs [] = [] := by
  induction cs with
  | nil => rfl
  | cons c cs ih =>
    have hc := h c (List.mem_cons_self _ _)
    simp only [splitAux, hc, List.isEmpty_nil, if_true, ite_true, reduceIte]
    exact ih (fun d hd => h d (List.mem_cons_of_mem _ hd))

/-- In the wav-without-transcoder configuration the loop events are exactly
one direct write per processed row, in row order. -/
theorem runEvents_direct_wav (args : Args) (wanted : Option (List String))
    (b64 : String → Bytes) (http : TtsRequest → HttpResp)
    (hw : args.format = "wav") (hff : args.use_ffmpeg = false) (rows : List Row) :
    ∀ ctr, runEvents args wanted b64 http rows ctr =
      (rows.filter (processedRow args wanted)).map
        (fun r => FsEvent.write (out_path_for args.outdir (row_id_of args r) "wav")
          (wavOf b64 http args r)) := by
  induction rows with
  | nil => intro ctr; simp [runEvents]
  | cons r rs ih =>
    intro ctr
    by_cases hpr : processedRow args wanted r = true
    · rw [runEvents, if_pos hpr]
      simp [rowEvents, row_output, hw, hff, write_direct_wav, ih, hpr, List.filter_cons]
    · rw [runEvents, if_neg (by simp [hpr])]
      simp [ih, hpr, List.filter_cons]

/-- C4: the process exits with code 1 exactly when the dataset file does
not exist; with code 2 when the dataset exists, a lossy format is requested
and the transcoder flag is off; with code 3 when the dataset exists, the
lossy check passes, the flag is on and the utility is missing; and these
three configuration checks produce no other sys.exit code (all remaining
outcomes carry no exit code). -/
theorem c4_exit_codes (args : Args) (env : Env) (b64 : String → Bytes)
    (http : TtsRequest → HttpResp) :
    exitCodeOf (main args env b64 http).outcome =
      (if env.csv_exists = false then some 1
       else if (args.format = "mp3" ∨ args.format = "ogg") ∧ args.use_ffmpeg = false then
         some 2
       else if args.use_ffmpeg = true ∧ env.ffmpeg_on_path = false then some 3
       else none) := by
  unfold main
  by_cases h1 : env.csv_exists = false
  · simp [h1, exitCodeOf]
  · by_cases h2 : (args.format = "mp3" ∨ args.format = "ogg") ∧ args.use_ffmpeg = false
    · simp [h1, h2, exitCodeOf]
    · by_cases h3 : args.use_ffmpeg = true ∧ env.ffmpeg_on_path = false
      · simp [h1, h2, h3, exitCodeOf]
      · by_cases h4 : env.fieldnames = []
        · simp [h1, h2, h3, h4, exitCodeOf]
        · by_cases h5 : args.id_col ∈ env.fieldnames
          · by_cases h6 : args.ssml_col ∈ env.fieldnames
            · simp only [h1, h2, h3, h4, h5, h6, if_false, ite_false, reduceIte,
                not_true_eq_false, not_false_eq_true, if_true, ite_true]
              cases habort :
                  (env.rows.foldl (step args (parse_ids args.ids) b64 http) initState).aborted <;>
                simp [h1, h2, h3, h4, h5, h6, habort, exitCodeOf]
            · simp [h1, h2, h3, h4, h5, h6, exitCodeOf]
          · simp [h1, h2, h3, h4, h5, exitCodeOf]

/-- C5: a run requesting a lossy format without the transcoder flag exits
fatally before the row loop: no remote request is ever submitted and no
file event happens (the exit code is 2, or 1 when the dataset is also
missing, the check that runs first). -/
theorem c5_lossy_without_ffmpeg_exits_before_remote (args : Args) (env : Env)
    (b64 : String → Bytes) (http : TtsRequest → HttpResp)
    (h : (args.format = "mp3" ∨ args.format = "ogg") ∧ args.use_ffmpeg = false) :
    (main args env b64 http).outcome =
      Outcome.exited (if env.csv_exists = false then 1 else 2) ∧
    (main args env b64 http).calls = [] ∧
    (main args env b64 http).events = [] := by
  unfold main
  by_cases h1 : env.csv_exists = false <;> simp [h1, h]

/-- Closed instance of the C5 theorem: requesting mp3 without the flag on
the baseline environment exits with code 2 and makes no remote call. -/
theorem c5_witness :
    (main args_c5 env_base oracle_b64 oracle_http200).outcome = Outcome.exited 2 ∧
    (main args_c5 env_base oracle_b64 oracle_http200).calls = [] ∧
    (main args_c5 env_base oracle_b64 oracle_http200).events = [] := by
  have h := c5_lossy_without_ffmpeg_exits_before_remote args_c5 env_base oracle_b64
    oracle_http200 (by decide)
  simpa [env_base] using h

/-- C9: the remote synthesis call performs exactly one request; it returns
the decoded payload precisely when the status is 200; on any other status
it fails with the RuntimeError message built from the status code and the
response body representation. -/
theorem c9_synthesize_contract (b64 : String → Bytes) (http : TtsRequest → HttpResp)
    (key voice lang ssml : String) :
    (synthesize_ssml_wav b64 http key voice lang ssml).1 =
      [tts_request key voice lang ssml] ∧
    ((synthesize_ssml_wav b64 http key voice lang ssml).2 =
        Except.ok (b64 ((http (tts_request key voice lang ssml)).audioContent)) ↔
      (http (tts_request key voice lang ssml)).status_code = 200) ∧
    ((http (tts_request key voice lang ssml)).status_code ≠ 200 →
      (synthesize_ssml_wav b64 http key voice lang ssml).2 =
        Except.error ("TTS failed (" ++
          toString (http (tts_request key voice lang ssml)).status_code ++ "): " ++
          err_repr (http (tts_request key voice lang ssml)))) := by
  by_cases h : (http (tts_request key voice lang ssml)).status_code = 200 <;>
    simp [synthesize_ssml_wav, h]

/-- C3 as stated is false: with the id column absent from the header the
run terminates by raising the KeyError message, carrying no sys.exit code
at all, unlike the three configuration checks. -/
theorem c3_counterexample :
    (main args_c3 env_base oracle_b64 oracle_http200).outcome =
      Outcome.raised (missing_col_msg "id" "identifier" ["id", "ssml"]) ∧
    exitCodeOf (main args_c3 env_base oracle_b64 oracle_http200).outcome = none ∧
    (main args_c3 env_base oracle_b64 oracle_http200).calls = [] ∧
    (main args_c3 env_base oracle_b64 oracle_http200).events = [] := by
  decide

/-- C3 amended: when either required column is absent from the header of an
otherwise well-configured run, the run fails before processing any row (no
remote request, no file event) by raising an uncaught exception, not by a
distinct sys.exit code. -/
theorem c3_missing_column_raises (args : Args) (env : Env) (b64 : String → Bytes)
    (http : TtsRequest → HttpResp)
    (h1 : env.csv_exists = true)
    (h2 : ¬ ((args.format = "mp3" ∨ args.format = "ogg") ∧ args.use_ffmpeg = false))
    (h3 : ¬ (args.use_ffmpeg = true ∧ env.ffmpeg_on_path = false))
    (h4 : env.fieldnames ≠ [])
    (h5 : args.id_col ∉ env.fieldnames ∨ args.ssml_col ∉ env.fieldnames) :
    (∃ m, (main args env b64 http).outcome = Outcome.raised m) ∧
    exitCodeOf (main args env b64 http).outcome = none ∧
    (main args env b64 http).calls = [] ∧
    (main args env b64 http).events = [] := by
  unfold main
  rcases h5 with h5 | h5
  · simp [h1, h2, h3, h4, h5, exitCodeOf]
  · by_cases h6 : args.id_col ∈ env.fieldnames
    · simp [h1, h2, h3, h4, h5, h6, exitCodeOf]
    · simp [h1, h2, h3, h4, h6, exitCodeOf]

/-- Closed instance of the amended C3 theorem at a concrete run. -/
theorem c3_witness :
    (∃ m, (main args_c3 env_base oracle_b64 oracle_http200).outcome = Outcome.raised m) ∧
    exitCodeOf (main args_c3 env_base oracle_b64 oracle_http200).outcome = none ∧
    (main args_c3 env_base oracle_b64 oracle_http200).calls = [] ∧
    (main args_c3 env_base oracle_b64 oracle_http200).events = [] :=
  c3_missing_column_raises args_c3 env_base oracle_b64 oracle_http200 rfl (by decide)
    (by decide) (by decide) (Or.inl (by decide))

/-- C10: a missing ids argument, the empty string, and any string made only
of commas and whitespace all parse to the no-filter value, under which every
row is processed (the concrete run submits its row); tokens are split on
both commas and whitespace and duplicates collapse, as the mixed-separator
example with a repeated token shows. -/
theorem c10_parse_ids_separators :
    parse_ids none = none ∧
    parse_ids (some "") = none ∧
    (∀ s : String, (∀ c ∈ s.data, sep c = true) → parse_ids (some s) = none) ∧
    (∃ l, parse_ids (some "1,2 3,,  2") = some l ∧ l.length = 3 ∧
      "1" ∈ l ∧ "2" ∈ l ∧ "3" ∈ l) ∧
    parse_ids args_c10.ids = none ∧
    (main args_c10 env_base oracle_b64 oracle_http200).calls = [reqOf args_c10 row1] := by
  refine ⟨rfl, rfl, ?_, ?_, ?_, ?_⟩
  · intro s h
    simp only [parse_ids]
    by_cases hs : s = ""
    · simp [hs]
    · rw [if_neg hs]
      simp [splitParts, splitAux_sep s.data h]
  · exact ⟨["1", "3", "2"], by decide, by decide, by decide, by decide, by decide⟩
  · decide
  · decide

/-- C8: with format wav and the transcoder flag off, the file events of a
successful run are exactly one direct write per processed row, at the path
outdir/id.wav, of precisely the base64-decoded payload of the remote
response for that row, with no transformation. -/
theorem c8_direct_wav_roundtrip (args : Args) (env : Env) (b64 : String → Bytes)
    (http : TtsRequest → HttpResp) (hr : reachesLoop args env) (hok : okRemote http)
    (hw : args.format = "wav") (hff : args.use_ffmpeg = false) :
    (main args env b64 http).events =
      (env.rows.filter (processedRow args (parse_ids args.ids))).map
        (fun r => FsEvent.write (out_path_for args.outdir (row_id_of args r) "wav")
          (b64 ((http (reqOf args r)).audioContent))) := by
  obtain ⟨-, -, hev, -, -, -⟩ := main_run args env b64 http hr (Or.inl hw) hok
  rw [hev, runEvents_direct_wav args (parse_ids args.ids) b64 http hw hff env.rows 0]
  rfl

/-- Closed instance of the C8 theorem: the baseline wav run writes exactly
the decoded payload of its single response. -/
theorem c8_witness :
    (main args_base env_base oracle_b64 oracle_http200).events =
      [FsEvent.write (out_path_for "out" "1" "wav")
        (oracle_b64 ((oracle_http200 (reqOf args_base row1)).audioContent))] := by
  have h := c8_direct_wav_roundtrip args_base env_base oracle_b64 oracle_http200
    ⟨rfl, by decide, by decide, by decide, by decide, by decide⟩ (fun _ => rfl) rfl rfl
  exact h.trans (by decide)

/-- C6 as stated is false: with filter set 2, the row with identifier 1 and
empty markup is never submitted, yet the skipped counter stays at zero
because the filter check runs before the markup check. -/
theorem c6_counterexample :
    row_id_of args_c6 [("id", "1"), ("ssml", "")] ≠ "" ∧
    ssml_of args_c6 [("id", "1"), ("ssml", "")] = "" ∧
    env_c6.rows = [[("id", "1"), ("ssml", "")]] ∧
    (main args_c6 env_c6 oracle_b64 oracle_http200).outcome = Outcome.completed ∧
    (main args_c6 env_c6 oracle_b64 oracle_http200).calls = [] ∧
    (main args_c6 env_c6 oracle_b64 oracle_http200).skipped = 0 := by
  decide

/-- C6 amended: the skipped counter counts exactly the rows with an empty
identifier plus the rows whose identifier passes the filter but whose
markup is empty; the submitted requests are exactly those of the processed
rows, so no empty-identifier or empty-markup row is ever submitted. -/
theorem c6_skipped_rows (args : Args) (env : Env) (b64 : String → Bytes)
    (http : TtsRequest → HttpResp) (hr : reachesLoop args env) (hfmt : validFormat args)
    (hok : okRemote http) :
    (main args env b64 http).skipped =
      (env.rows.filter (skippedRow args (parse_ids args.ids))).length ∧
    (main args env b64 http).calls =
      (env.rows.filter (processedRow args (parse_ids args.ids))).map (reqOf args) := by
  obtain ⟨-, hcalls, -, -, hskip, -⟩ := main_run args env b64 http hr hfmt hok
  exact ⟨hskip, hcalls⟩

/-- Closed instance of the amended C6 theorem on the empty-markup row
environment without a filter. -/
theorem c6_witness :
    (main args_base env_c6 oracle_b64 oracle_http200).skipped =
      (env_c6.rows.filter (skippedRow args_base (parse_ids args_base.ids))).length ∧
    (main args_base env_c6 oracle_b64 oracle_http200).calls =
      (env_c6.rows.filter (processedRow args_base (parse_ids args_base.ids))).map
        (reqOf args_base) :=
  c6_skipped_rows args_base env_c6 oracle_b64 oracle_http200
    ⟨rfl, by decide, by decide, by decide, by decide, by decide⟩ (Or.inl rfl) (fun _ => rfl)

/-- C7: under an identifier filter, the submitted requests are exactly
those of the rows whose identifier is in the filter set (and non-empty,
with non-empty markup), and the final report lists, sorted, exactly the
requested identifiers matching no row of the source. -/
theorem c7_filter_and_not_found (args : Args) (env : Env) (b64 : String → Bytes)
    (http : TtsRequest → HttpResp) (w : List String) (hr : reachesLoop args env)
    (hfmt : validFormat args) (hok : okRemote http)
    (hw : parse_ids args.ids = some w) :
    (main args env b64 http).calls =
      (env.rows.filter (processedRow args (some w))).map (reqOf args) ∧
    (∀ r ∈ env.rows, processedRow args (some w) r = true → row_id_of args r ∈ w) ∧
    (main args env b64 http).not_found_report =
      sortStrings (w.filter (fun x =>
        !(env.rows.any (fun r => row_id_of args r == x)))) := by
  obtain ⟨-, hcalls, -, -, -, hnf⟩ := main_run args env b64 http hr hfmt hok
  refine ⟨by rw [hcalls, hw], ?_, ?_⟩
  · intro r hrmem hp
    simp only [processedRow, passes, Bool.and_eq_true, decide_eq_true_eq] at hp
    exact hp.1.2
  · rw [hnf, hw]
    show sortStrings (w.filter (fun x =>
      decide (x ∉ env.rows.foldl (seenStep args) []))) = _
    congr 1
    apply List.filter_congr
    intro x hxw
    have hx0 : x ≠ "" := parse_ids_nonempty args.ids w hw x hxw
    have hmem := mem_foldl_seenStep args env.rows [] x
    simp only [List.not_mem_nil, false_or] at hmem
    by_cases hx : x ∈ env.rows.foldl (seenStep args) []
    · obtain ⟨r, hrmem, hr1, -⟩ := hmem.mp hx
      have hany : env.rows.any (fun r => row_id_of args r == x) = true := by
        rw [List.any_eq_true]
        exact ⟨r, hrmem, by simp [hr1]⟩
      simp [hx, hany]
    · have hany : env.rows.any (fun r => row_id_of args r == x) = false := by
        rw [Bool.eq_false_iff]
        intro hanyt
        obtain ⟨r, hrmem, hreq⟩ := List.any_eq_true.mp hanyt
        exact hx (hmem.mpr ⟨r, hrmem, by simpa using hreq, hx0⟩)
      simp [hx, hany]

/-- Closed instance of the C7 theorem at the worked example of the spec:
filter set 2 and 5, dataset identifiers 1, 2 and 3: only row 2 is
submitted and exactly 5 is reported not found. -/
theorem c7_witness :
    (main args_c7 env_c7 oracle_b64 oracle_http200).not_found_report = ["5"] ∧
    (main args_c7 env_c7 oracle_b64 oracle_http200).calls =
      [reqOf args_c7 [("id", "2"), ("ssml", "y")]] := by
  have h := c7_filter_and_not_found args_c7 env_c7 oracle_b64 oracle_http200 ["2", "5"]
    ⟨rfl, by decide, by decide, by decide, by decide, by decide⟩ (Or.inl rfl) (fun _ => rfl)
    (by decide)
  exact ⟨h.2.2.trans (by decide), h.1.trans (by decide)⟩

/-- The length of each supported extension string is three. -/
theorem ext_length (ext : String) (h : ext ∈ ["wav", "mp3", "ogg"]) : ext.length = 3 := by
  simp only [List.mem_cons, List.not_mem_nil, or_false] at h
  rcases h with h | h | h <;> subst h <;> rfl

/-- Every per-row output path is the deterministic path for an extension of
length three that is either the chosen format or, in the keep-intermediate
configuration, wav. -/
theorem mem_rowOutPaths (args : Args) (hfmt : validFormat args) (id p : String)
    (hp : p ∈ rowOutPaths args id) :
    ∃ e, p = out_path_for args.outdir id e ∧ e.length = 3 ∧
      (e = args.format ∨ (e = "wav" ∧ (args.format = "mp3" ∨ args.format = "ogg") ∧
        args.delete_original_wav = false)) := by
  have hlen : args.format.length = 3 := by
    rcases hfmt with h | h | h <;> rw [h] <;> rfl
  by_cases hw : args.format = "wav"
  · simp [rowOutPaths, hw] at hp
    exact ⟨"wav", hp, rfl, Or.inl hw.symm⟩
  · have hl : args.format = "mp3" ∨ args.format = "ogg" := by
      rcases hfmt with h | h | h
      · exact absurd h hw
      · exact Or.inl h
      · exact Or.inr h
    by_cases hd : args.delete_original_wav = true
    · simp [rowOutPaths, hw, hd] at hp
      exact ⟨args.format, hp, hlen, Or.inl rfl⟩
    · simp [rowOutPaths, hw, hd] at hp
      rcases hp with hp | hp
      · exact ⟨"wav", hp, rfl, Or.inr ⟨rfl, hl, eq_false_of_ne_true hd⟩⟩
      · exact ⟨args.format, hp, hlen, Or.inl rfl⟩

/-- The output path of the chosen format is among the per-row output
paths. -/
theorem rowOutPaths_self (args : Args) (id : String) :
    out_path_for args.outdir id args.format ∈ rowOutPaths args id := by
  by_cases hw : args.format = "wav"
  · simp [rowOutPaths, hw]
  · by_cases hd : args.delete_original_wav = true <;> simp [rowOutPaths, hw, hd]

/-- In the keep-intermediate configuration the intermediate wav path is
also among the per-row output paths. -/
theorem rowOutPaths_keep_wav (args : Args) (id : String)
    (hl : args.format = "mp3" ∨ args.format = "ogg")
    (hd : args.delete_original_wav = false) :
    out_path_for args.outdir id "wav" ∈ rowOutPaths args id := by
  have hw : ¬ args.format = "wav" := by rcases hl with h | h <;> rw [h] <;> decide
  simp [rowOutPaths, hw, hd]

/-- C1 amended: for every processed row, the final output directory holds
the file outdir/id.ext exactly when ext is the chosen format, or when ext
is wav and the run keeps the intermediate (lossy format with the delete
flag off); so exactly one output file is produced at outdir/id.format, and
the kept intermediate outdir/id.wav is the only possible second file for
that row. -/
theorem c1_output_files (args : Args) (env : Env) (b64 : String → Bytes)
    (http : TtsRequest → HttpResp) (ffout : List String → Bytes)
    (hr : reachesLoop args env) (hfmt : validFormat args) (hok : okRemote http)
    (htmp : tmpDisjoint args.outdir) :
    ∀ r ∈ env.rows, processedRow args (parse_ids args.ids) r = true →
      ∀ ext ∈ ["wav", "mp3", "ogg"],
        hasFile (run_disk ffout (main args env b64 http).events)
            (out_path_for args.outdir (row_id_of args r) ext) =
          (decide (ext = args.format) ||
            (decide (ext = "wav") &&
              decide ((args.format = "mp3" ∨ args.format = "ogg") ∧
                args.delete_original_wav = false))) := by
  intro r hrmem hpr ext hext
  obtain ⟨-, -, hev, -, -, -⟩ := main_run args env b64 http hr hfmt hok
  rw [hev, hasFile_run_disk, finalHas_runEvents args (parse_ids args.ids) b64 http hfmt
    (out_path_for args.outdir (row_id_of args r) ext)
    (fun k => htmp k (row_id_of args r) ext) env.rows 0 false]
  rw [Bool.false_or]
  rw [Bool.eq_iff_iff]
  constructor
  · intro hany
    obtain ⟨q, hqmem, hcond⟩ := List.any_eq_true.mp hany
    rw [Bool.and_eq_true, decide_eq_true_eq] at hcond
    obtain ⟨hproc, hmem⟩ := hcond
    obtain ⟨e, hpe, helen, hedisj⟩ :=
      mem_rowOutPaths args hfmt (row_id_of args q) _ hmem
    have hextlen := ext_length ext hext
    obtain ⟨hid, hee⟩ := out_path_inj args.outdir (row_id_of args r) ext
      (row_id_of args q) e (by rw [hextlen, helen]) hpe
    subst hee
    rcases hedisj with h | ⟨h1, h2, h3⟩
    · simp [h]
    · simp [h1, h2, h3]
  · intro hrhs
    rw [Bool.or_eq_true, Bool.and_eq_true, decide_eq_true_eq, decide_eq_true_eq,
      decide_eq_true_eq] at hrhs
    rw [List.any_eq_true]
    refine ⟨r, hrmem, ?_⟩
    rw [Bool.and_eq_true, decide_eq_true_eq]
    refine ⟨hpr, ?_⟩
    rcases hrhs with h | ⟨h1, h2, h3⟩
    · rw [h]; exact rowOutPaths_self args (row_id_of args r)
    · rw [h1]; exact rowOutPaths_keep_wav args (row_id_of args r) h2 h3

/-- C1 as stated is false: in the concrete mp3 run that keeps the
intermediate (the default), the processed row 1 leaves two files in the
output directory, out/1.wav and out/1.mp3. -/
theorem c1_counterexample :
    processedRow args_c1 (parse_ids args_c1.ids) row1 = true ∧
    run_disk oracle_ffout (main args_c1 env_base oracle_b64 oracle_http200).events =
      [("out/1.wav", oracle_b64 "<speak>hi</speak>"),
       ("out/1.mp3", oracle_ffout (keep_intermediate_cmd "out/1.wav" "out/1.mp3"))] ∧
    hasFile (run_disk oracle_ffout
      (main args_c1 env_base oracle_b64 oracle_http200).events) "out/1.wav" = true ∧
    hasFile (run_disk oracle_ffout
      (main args_c1 env_base oracle_b64 oracle_http200).events) "out/1.mp3" = true := by
  decide

/-- Closed instance of the amended C1 theorem: in the concrete
keep-intermediate mp3 run, the wav for the processed row is present. -/
theorem c1_witness :
    hasFile (run_disk oracle_ffout
        (main args_c1 env_base oracle_b64 oracle_http200).events)
      (out_path_for args_c1.outdir (row_id_of args_c1 row1) "wav") = true := by
  have h := c1_output_files args_c1 env_base oracle_b64 oracle_http200 oracle_ffout
    ⟨rfl, by decide, by decide, by decide, by decide, by decide⟩ (Or.inr (Or.inl rfl))
    (fun _ => rfl) tmpDisjoint_out row1 (by decide) (by decide) "wav" (by decide)
  exact h.trans (by decide)

/-- C2 as stated is false: for the same input and output files, the bare
keep-intermediate command differs from the mp3 template (it lacks the codec
and quality arguments), and the concrete keep-intermediate run indeed
invokes the bare command. -/
theorem c2_counterexample :
    keep_intermediate_cmd "out/1.wav" "out/1.mp3" ≠
      (ffmpeg_cmd "mp3" "out/1.wav" "out/1.mp3").getD [] ∧
    (main args_c1 env_base oracle_b64 oracle_http200).events =
      [FsEvent.write "out/1.wav" (oracle_b64 "<speak>hi</speak>"),
       FsEvent.ffmpegRun (keep_intermediate_cmd "out/1.wav" "out/1.mp3")] := by
  decide

/-- C2 amended: the conversion helper always invokes the fixed template of
the chosen lossy encoding, while the keep-intermediate path invokes a bare
command that differs from the template even with identical input and output
files, so the two paths are not equivalent up to the input file. -/
theorem c2_template_vs_keep (wavb : Bytes) (inp out fmt : String) (dt : Bool) (ctr : Nat)
    (h : fmt = "mp3" ∨ fmt = "ogg") :
    ((convert_wav_bytes_with_ffmpeg wavb out fmt dt ctr).1).1 =
      [FsEvent.write (tmp_wav_path ctr) wavb,
       FsEvent.ffmpegRun ((ffmpeg_cmd fmt (tmp_wav_path ctr) out).getD [])] ++
      (if dt then [FsEvent.remove (tmp_wav_path ctr)] else []) ∧
    keep_intermediate_cmd inp out ≠ (ffmpeg_cmd fmt inp out).getD [] := by
  rcases h with h | h <;> subst h <;> constructor
  · simp [convert_wav_bytes_with_ffmpeg, ffmpeg_cmd]
  · intro heq
    have hl := congrArg List.length heq
    simp [keep_intermediate_cmd, ffmpeg_cmd] at hl
  · simp [convert_wav_bytes_with_ffmpeg, ffmpeg_cmd]
  · intro heq
    have hl := congrArg List.length heq
    simp [keep_intermediate_cmd, ffmpeg_cmd] at hl

/-- Closed instance of the amended C2 theorem at the mp3 encoding. -/
theorem c2_witness :
    ((convert_wav_bytes_with_ffmpeg [0] "o.mp3" "mp3" true 0).1).1 =
      [FsEvent.write (tmp_wav_path 0) [0],
       FsEvent.ffmpegRun ((ffmpeg_cmd "mp3" (tmp_wav_path 0) "o.mp3").getD [])] ++
      (if true then [FsEvent.remove (tmp_wav_path 0)] else []) ∧
    keep_intermediate_cmd "i.wav" "o.mp3" ≠ (ffmpeg_cmd "mp3" "i.wav" "o.mp3").getD [] :=
  c2_template_vs_keep [0] "i.wav" "o.mp3" "mp3" true 0 (Or.inl rfl)

end Generate
